import Mathlib

/-!
Shallow embedding of the `bufsd` C++ library (writer `Serializer` and reader
`Deserializer`, from `src/src/deserializer.cpp`, the serializer header and
`include/bufsd/deserializer.h`).

Modelling conventions:
- bytes and `size_t` values are `Nat`; a real buffer holds bytes `< 256`;
- C++ exceptions become `Except`; since a thrown exception leaves the C++
  object in the state it had at the throw site, fallible operations return
  `Except (Error × State) ...`, the error carrying the state at throw time;
- the template parameter `T` of the fixed-width pushes is represented by
  `sizeofT : Nat`, the value of `sizeof(T)`;
- out-of-range vector writes (`buffer[index++] = ...` in
  `insert_buffer_sizes`) are modelled by `List.set`, which is a no-op out of
  range; on states reachable through the public interface all patch offsets
  are in range.
-/

deriving instance DecidableEq for Except

namespace Bufsd

/-- Payload of the reader error message built by `make_error_message`
(`deserializer.cpp:6-11`): the requested amount and the remaining amount. -/
structure OutOfBoundsError where
  requested : Nat
  remaining : Nat
deriving DecidableEq, Repr

/-- Reader state (`include/bufsd/deserializer.h`): the wrapped buffer, the
cursor (initially 0), the stored buffer size and the stored remaining count. -/
structure Deserializer where
  buffer : List Nat
  cursor : Nat
  buffer_size : Nat
  remaining : Nat
deriving DecidableEq, Repr

/-- Constructor `Deserializer(const std::vector<unsigned char>&)`
(`deserializer.cpp:89-92`): `buffer_size` and `remaining` start as
`buffer.size()`, `cursor` starts at 0 (default member initializer). -/
def Deserializer.fromBuffer (buffer : List Nat) : Deserializer :=
  { buffer := buffer, cursor := 0, buffer_size := buffer.length,
    remaining := buffer.length }

/-- `Deserializer::update_remaining` (`deserializer.cpp:100-106`). The C++
also tests `cursor < 0`, impossible for the unsigned `size_t`. -/
def Deserializer.update_remaining (d : Deserializer) : Deserializer :=
  if d.cursor ≥ d.buffer_size then { d with remaining := 0 }
  else { d with remaining := d.buffer_size - d.cursor }

/-- `Deserializer::assert_is_available` (`deserializer.cpp:94-98`): throws
when fewer than `amount_of_bytes` bytes remain. -/
def Deserializer.assert_is_available (d : Deserializer) (amount_of_bytes : Nat) :
    Except OutOfBoundsError Unit :=
  if d.remaining < amount_of_bytes then .error ⟨amount_of_bytes, d.remaining⟩
  else .ok ()

/-- `Deserializer::get_buffer` (`deserializer.cpp:18-29`): bounds check, copy
the `size` bytes at the cursor, advance the cursor, recompute `remaining`. -/
def Deserializer.get_buffer (d : Deserializer) (size : Nat) :
    Except (OutOfBoundsError × Deserializer) (List Nat × Deserializer) :=
  match d.assert_is_available size with
  | .error e => .error (e, d)
  | .ok _ =>
      let result := (d.buffer.drop d.cursor).take size
      .ok (result, ({ d with cursor := d.cursor + size }).update_remaining)

/-- `Deserializer::get_big_endian` (`deserializer.cpp:46-58`). The C++ loop
runs `i` from `amount_of_bytes - 1` down to 0 doing
`value |= buffer[cursor++] << 8 * i`; here `j` counts iterations, so the byte
read in iteration `j` sits at `cursor + j` and is shifted by
`8 * (amount_of_bytes - 1 - j)`. Afterwards the cursor has advanced by
`amount_of_bytes` and `remaining` is recomputed. -/
def Deserializer.get_big_endian (d : Deserializer) (amount_of_bytes : Nat) :
    Except (OutOfBoundsError × Deserializer) (Nat × Deserializer) :=
  match d.assert_is_available amount_of_bytes with
  | .error e => .error (e, d)
  | .ok _ =>
      let value := (List.range amount_of_bytes).foldl
        (fun value j =>
          value ||| ((d.buffer.getD (d.cursor + j) 0) <<<
            (8 * (amount_of_bytes - 1 - j)))) 0
      .ok (value, ({ d with cursor := d.cursor + amount_of_bytes }).update_remaining)

/-- `Deserializer::get_little_endian` (`deserializer.cpp:75-87`): the loop
runs `i` from 0 to `amount_of_bytes - 1` doing
`value |= buffer[cursor++] << 8 * i`. -/
def Deserializer.get_little_endian (d : Deserializer) (amount_of_bytes : Nat) :
    Except (OutOfBoundsError × Deserializer) (Nat × Deserializer) :=
  match d.assert_is_available amount_of_bytes with
  | .error e => .error (e, d)
  | .ok _ =>
      let value := (List.range amount_of_bytes).foldl
        (fun value i =>
          value ||| ((d.buffer.getD (d.cursor + i) 0) <<< (8 * i))) 0
      .ok (value, ({ d with cursor := d.cursor + amount_of_bytes }).update_remaining)

/-- `Deserializer::get_byte` (`deserializer.cpp:13-16`): casts
`get_big_endian(1)` to `unsigned char`. -/
def Deserializer.get_byte (d : Deserializer) :
    Except (OutOfBoundsError × Deserializer) (Nat × Deserializer) :=
  (d.get_big_endian 1).map (fun p => (p.1 % 2 ^ 8, p.2))

/-- `Deserializer::get_16_big_endian` (`deserializer.cpp:31-34`): casts
`get_big_endian(2)` to `unsigned short`. -/
def Deserializer.get_16_big_endian (d : Deserializer) :
    Except (OutOfBoundsError × Deserializer) (Nat × Deserializer) :=
  (d.get_big_endian 2).map (fun p => (p.1 % 2 ^ 16, p.2))

/-- `Deserializer::get_32_big_endian` (`deserializer.cpp:36-39`): casts
`get_big_endian(4)` to `unsigned int`. -/
def Deserializer.get_32_big_endian (d : Deserializer) :
    Except (OutOfBoundsError × Deserializer) (Nat × Deserializer) :=
  (d.get_big_endian 4).map (fun p => (p.1 % 2 ^ 32, p.2))

/-- `Deserializer::get_64_big_endian` (`deserializer.cpp:41-44`). -/
def Deserializer.get_64_big_endian (d : Deserializer) :
    Except (OutOfBoundsError × Deserializer) (Nat × Deserializer) :=
  d.get_big_endian 8

/-- `Deserializer::get_16_little_endian` (`deserializer.cpp:60-63`). -/
def Deserializer.get_16_little_endian (d : Deserializer) :
    Except (OutOfBoundsError × Deserializer) (Nat × Deserializer) :=
  (d.get_little_endian 2).map (fun p => (p.1 % 2 ^ 16, p.2))

/-- `Deserializer::get_32_little_endian` (`deserializer.cpp:65-68`). -/
def Deserializer.get_32_little_endian (d : Deserializer) :
    Except (OutOfBoundsError × Deserializer) (Nat × Deserializer) :=
  (d.get_little_endian 4).map (fun p => (p.1 % 2 ^ 32, p.2))

/-- `Deserializer::get_64_little_endian` (`deserializer.cpp:70-73`). -/
def Deserializer.get_64_little_endian (d : Deserializer) :
    Except (OutOfBoundsError × Deserializer) (Nat × Deserializer) :=
  d.get_little_endian 8

/-- `Deserializer::skip` (`deserializer.cpp:123-129`). -/
def Deserializer.skip (d : Deserializer) (amount_of_bytes : Nat) :
    Except (OutOfBoundsError × Deserializer) Deserializer :=
  match d.assert_is_available amount_of_bytes with
  | .error e => .error (e, d)
  | .ok _ => .ok (({ d with cursor := d.cursor + amount_of_bytes }).update_remaining)

/-- `Deserializer::reset_cursor` (`deserializer.cpp:131-135`). -/
def Deserializer.reset_cursor (d : Deserializer) : Deserializer :=
  ({ d with cursor := 0 }).update_remaining

/-- `Deserializer::set_cursor` (`deserializer.cpp:137-141`): first
`reset_cursor()`, then `skip(position)`; a throw from `skip` therefore leaves
the object in the already-reset state. -/
def Deserializer.set_cursor (d : Deserializer) (position : Nat) :
    Except (OutOfBoundsError × Deserializer) Deserializer :=
  (d.reset_cursor).skip position

/-- Payload of the writer error message built by the serializer header's
`make_error_message(expected, received)`: both parameters are
`unsigned char`; the message prints `expected` as a bit count and
`received * 8` as a bit count. Here both fields hold the printed bit
counts. -/
structure SizeMismatchError where
  expected_bits : Nat
  received_bits : Nat
deriving DecidableEq, Repr

/-- `check_size<T>(value, amount_of_bytes)` from the serializer header:
throws when `sizeof(T) != amount_of_bytes`. The arguments of
`make_error_message` are truncated to `unsigned char` (mod 256) before the
message multiplies the received byte count by 8. -/
def check_size (sizeofT : Nat) (amount_of_bytes : Nat) :
    Except SizeMismatchError Unit :=
  if sizeofT ≠ amount_of_bytes then
    .error ⟨amount_of_bytes * 8 % 256, sizeofT % 256 * 8⟩
  else .ok ()

/-- `Serializer::Endianness` from the serializer header. -/
inductive Endianness where
  | BIG
  | LITTLE
deriving DecidableEq, Repr

/-- `Serializer::Deferred_Buffer_Size` from the serializer header: the
offset of the reserved bytes, their count, and the requested byte order. -/
structure Deferred_Buffer_Size where
  index : Nat
  number_of_bytes : Nat
  endianness : Endianness
deriving DecidableEq, Repr

/-- Writer state from the serializer header: the output bytes and the list
of pending deferred-size patches. -/
structure Serializer where
  buffer : List Nat
  deferred_sizes : List Deferred_Buffer_Size
deriving DecidableEq, Repr

/-- Default constructor `Serializer()`: empty buffer (the 1024-byte reserve
only preallocates capacity), empty patch list. -/
def Serializer.new : Serializer := ⟨[], []⟩

/-- Constructor `Serializer(size, value)`: buffer resized to `size` bytes all
equal to `value`. -/
def Serializer.ofSize (size : Nat) (value : Nat) : Serializer :=
  ⟨List.replicate size value, []⟩

/-- Byte sequence appended by `Serializer::push_little_endian<T>`: for
`i = 0 .. sizeof(T) - 1` the byte `(value >> (i * 8)) & 0xff`. -/
def bytes_little_endian (sizeofT : Nat) (value : Nat) : List Nat :=
  (List.range sizeofT).map (fun i => (value >>> (i * 8)) &&& 0xff)

/-- Byte sequence appended by `Serializer::push_big_endian<T>`: for
`i = sizeof(T) - 1` down to 0 the byte `(value >> (i * 8)) & 0xff`. -/
def bytes_big_endian (sizeofT : Nat) (value : Nat) : List Nat :=
  ((List.range sizeofT).reverse).map (fun i => (value >>> (i * 8)) &&& 0xff)

/-- `Serializer::push_little_endian<T>(value)` from the serializer header. -/
def Serializer.push_little_endian (s : Serializer) (sizeofT : Nat) (value : Nat) :
    Serializer :=
  { s with buffer := s.buffer ++ bytes_little_endian sizeofT value }

/-- `Serializer::push_big_endian<T>(value)` from the serializer header. -/
def Serializer.push_big_endian (s : Serializer) (sizeofT : Nat) (value : Nat) :
    Serializer :=
  { s with buffer := s.buffer ++ bytes_big_endian sizeofT value }

/-- `Serializer::push_16_big_endian<T>`: `check_size(value, 2)` then
`push_big_endian(value)`. -/
def Serializer.push_16_big_endian (s : Serializer) (sizeofT : Nat) (value : Nat) :
    Except (SizeMismatchError × Serializer) Serializer :=
  match check_size sizeofT 2 with
  | .error e => .error (e, s)
  | .ok _ => .ok (s.push_big_endian sizeofT value)

/-- `Serializer::push_32_big_endian<T>`: `check_size(value, 4)` then
`push_big_endian(value)`. -/
def Serializer.push_32_big_endian (s : Serializer) (sizeofT : Nat) (value : Nat) :
    Except (SizeMismatchError × Serializer) Serializer :=
  match check_size sizeofT 4 with
  | .error e => .error (e, s)
  | .ok _ => .ok (s.push_big_endian sizeofT value)

/-- `Serializer::push_64_big_endian<T>`: `check_size(value, 8)` then
`push_big_endian(value)`. -/
def Serializer.push_64_big_endian (s : Serializer) (sizeofT : Nat) (value : Nat) :
    Except (SizeMismatchError × Serializer) Serializer :=
  match check_size sizeofT 8 with
  | .error e => .error (e, s)
  | .ok _ => .ok (s.push_big_endian sizeofT value)

/-- `Serializer::push_16_little_endian<T>`. -/
def Serializer.push_16_little_endian (s : Serializer) (sizeofT : Nat) (value : Nat) :
    Except (SizeMismatchError × Serializer) Serializer :=
  match check_size sizeofT 2 with
  | .error e => .error (e, s)
  | .ok _ => .ok (s.push_little_endian sizeofT value)

/-- `Serializer::push_32_little_endian<T>`. -/
def Serializer.push_32_little_endian (s : Serializer) (sizeofT : Nat) (value : Nat) :
    Except (SizeMismatchError × Serializer) Serializer :=
  match check_size sizeofT 4 with
  | .error e => .error (e, s)
  | .ok _ => .ok (s.push_little_endian sizeofT value)

/-- `Serializer::push_64_little_endian<T>`. -/
def Serializer.push_64_little_endian (s : Serializer) (sizeofT : Nat) (value : Nat) :
    Except (SizeMismatchError × Serializer) Serializer :=
  match check_size sizeofT 8 with
  | .error e => .error (e, s)
  | .ok _ => .ok (s.push_little_endian sizeofT value)

/-- `Serializer::push_byte<T>`: `check_size(value, 1)` then
`push_little_endian(value)`. -/
def Serializer.push_byte (s : Serializer) (sizeofT : Nat) (value : Nat) :
    Except (SizeMismatchError × Serializer) Serializer :=
  match check_size sizeofT 1 with
  | .error e => .error (e, s)
  | .ok _ => .ok (s.push_little_endian sizeofT value)

/-- `Serializer::push_buffer`: appends the given bytes verbatim; no failure
path exists. -/
def Serializer.push_buffer (s : Serializer) (values : List Nat) : Serializer :=
  { s with buffer := s.buffer ++ values }

/-- `Serializer::defer_buffer_size_32_big_endian`: records the patch
`{buffer.size(), 4, Endianness::BIG}` and then calls
`push_32_big_endian(0x00000000)`; the `int` literal has `sizeof` 4, so the
size check passes and 4 zero bytes are appended. -/
def Serializer.defer_buffer_size_32_big_endian (s : Serializer) : Serializer :=
  let s' := { s with
    deferred_sizes :=
      s.deferred_sizes ++ [Deferred_Buffer_Size.mk s.buffer.length 4 Endianness.BIG] }
  s'.push_big_endian 4 0x00000000

/-- `Serializer::insert_buffer_sizes`: snapshots `buffer.size()`, then for
each pending patch in registration order overwrites
`deferred.number_of_bytes` bytes starting at `deferred.index` with the
snapshot encoded big-endian — the loop runs `i` from `number_of_bytes - 1`
down to 0 writing `(buffer_size >> (i * 8)) & 0xff` at `index++`; here `j`
counts iterations, so iteration `j` writes at offset `index + j` with
`i = number_of_bytes - 1 - j`. -/
def Serializer.insert_buffer_sizes (s : Serializer) : Serializer :=
  let buffer_size := s.buffer.length
  let patched := s.deferred_sizes.foldl
    (fun buf deferred =>
      (List.range deferred.number_of_bytes).foldl
        (fun buf j =>
          buf.set (deferred.index + j)
            ((buffer_size >>> ((deferred.number_of_bytes - 1 - j) * 8)) &&& 0xff))
        buf)
    s.buffer
  { s with buffer := patched }

/-- `Serializer::get_buffer`: runs `insert_buffer_sizes` and returns the
(patched) buffer; the second component is the mutated writer. -/
def Serializer.get_buffer (s : Serializer) : List Nat × Serializer :=
  let s' := s.insert_buffer_sizes
  (s'.buffer, s')

/-- `Serializer::get_buffer_size`: the current buffer length. -/
def Serializer.get_buffer_size (s : Serializer) : Nat :=
  s.buffer.length

/-! Helper lemmas. -/

lemma assert_is_available_error (d : Deserializer) (n : Nat) (h : d.remaining < n) :
    d.assert_is_available n = .error ⟨n, d.remaining⟩ := by
  simp [Deserializer.assert_is_available, h]

lemma get_buffer_oob (d : Deserializer) (n : Nat) (h : d.remaining < n) :
    d.get_buffer n = .error (⟨n, d.remaining⟩, d) := by
  simp [Deserializer.get_buffer, assert_is_available_error d n h]

lemma skip_oob (d : Deserializer) (n : Nat) (h : d.remaining < n) :
    d.skip n = .error (⟨n, d.remaining⟩, d) := by
  simp [Deserializer.skip, assert_is_available_error d n h]

lemma get_big_endian_oob (d : Deserializer) (n : Nat) (h : d.remaining < n) :
    d.get_big_endian n = .error (⟨n, d.remaining⟩, d) := by
  simp [Deserializer.get_big_endian, assert_is_available_error d n h]

lemma get_little_endian_oob (d : Deserializer) (n : Nat) (h : d.remaining < n) :
    d.get_little_endian n = .error (⟨n, d.remaining⟩, d) := by
  simp [Deserializer.get_little_endian, assert_is_available_error d n h]

lemma reset_cursor_eq (d : Deserializer) :
    d.reset_cursor = { d with cursor := 0, remaining := d.buffer_size } := by
  unfold Deserializer.reset_cursor Deserializer.update_remaining
  split
  · rename_i hge
    simp only at hge
    have : d.buffer_size = 0 := by omega
    simp [this]
  · simp

lemma range_map_sub (n : Nat) :
    (List.range n).map (fun j => n - 1 - j) = (List.range n).reverse := by
  induction n with
  | zero => simp
  | succ n ih =>
    conv_lhs => rw [List.range_succ_eq_map]
    conv_rhs => rw [List.range_succ]
    simp only [List.map_cons, List.map_map, List.reverse_append, List.reverse_cons,
      List.reverse_nil, List.nil_append, List.singleton_append]
    have hfun : ((fun j => n + 1 - 1 - j) ∘ Nat.succ) = (fun j => n - 1 - j) := by
      funext j
      simp only [Function.comp_apply]
      omega
    rw [hfun, ih]
    simp

lemma bytes_big_endian_length (w v : Nat) : (bytes_big_endian w v).length = w := by
  simp [bytes_big_endian]

lemma bytes_little_endian_length (w v : Nat) : (bytes_little_endian w v).length = w := by
  simp [bytes_little_endian]

lemma bytes_big_endian_getD (w v j : Nat) (h : j < w) :
    (bytes_big_endian w v).getD j 0 = (v >>> ((w - 1 - j) * 8)) &&& 0xff := by
  unfold bytes_big_endian
  rw [← range_map_sub, List.map_map]
  simp [List.getElem?_map, List.getElem?_range h, Function.comp]

lemma bytes_little_endian_getD (w v j : Nat) (h : j < w) :
    (bytes_little_endian w v).getD j 0 = (v >>> (j * 8)) &&& 0xff := by
  unfold bytes_little_endian
  simp [List.getElem?_map, List.getElem?_range h]

lemma be_fold_aux (k v : Nat) :
    ((List.range k).reverse).foldl
      (fun acc i => acc ||| (((v >>> (i * 8)) &&& 0xff) <<< (8 * i)))
      (2 ^ (8 * k) * (v >>> (8 * k))) = v := by
  induction k with
  | zero => simp
  | succ k ih =>
    rw [List.range_succ, List.reverse_append]
    simp only [List.reverse_cons, List.reverse_nil, List.nil_append,
      List.singleton_append, List.foldl_cons]
    have hstep : (2 ^ (8 * (k + 1)) * (v >>> (8 * (k + 1)))) |||
        (((v >>> (k * 8)) &&& 0xff) <<< (8 * k)) = 2 ^ (8 * k) * (v >>> (8 * k)) := by
      have h255 : (0xff : Nat) = 2 ^ 8 - 1 := by norm_num
      rw [h255, Nat.and_pow_two_sub_one_eq_mod, Nat.shiftLeft_eq,
        Nat.shiftRight_eq_div_pow, Nat.shiftRight_eq_div_pow, Nat.shiftRight_eq_div_pow]
      have hlt : (v / 2 ^ (k * 8) % 2 ^ 8) * 2 ^ (8 * k) < 2 ^ (8 * (k + 1)) := by
        have h1 : v / 2 ^ (k * 8) % 2 ^ 8 < 2 ^ 8 := Nat.mod_lt _ (by positivity)
        have h2 : (v / 2 ^ (k * 8) % 2 ^ 8) * 2 ^ (8 * k) < 2 ^ 8 * 2 ^ (8 * k) :=
          mul_lt_mul_of_pos_right h1 (by positivity)
        have h3 : (2 : Nat) ^ 8 * 2 ^ (8 * k) = 2 ^ (8 * (k + 1)) := by
          rw [← pow_add]
          ring_nf
        rw [h3] at h2
        exact h2
      rw [← Nat.mul_add_lt_is_or hlt]
      have e1 : k * 8 = 8 * k := Nat.mul_comm k 8
      have e2 : 8 * (k + 1) = 8 * k + 8 := by ring
      rw [e1, e2, pow_add, ← Nat.div_div_eq_div_mul]
      calc 2 ^ (8 * k) * 2 ^ 8 * (v / 2 ^ (8 * k) / 2 ^ 8) +
            v / 2 ^ (8 * k) % 2 ^ 8 * 2 ^ (8 * k)
          = 2 ^ (8 * k) * (2 ^ 8 * (v / 2 ^ (8 * k) / 2 ^ 8) +
              v / 2 ^ (8 * k) % 2 ^ 8) := by ring
        _ = 2 ^ (8 * k) * (v / 2 ^ (8 * k)) := by rw [Nat.div_add_mod]
    rw [hstep]
    exact ih

lemma le_fold_aux (k v : Nat) :
    (List.range k).foldl
      (fun acc i => acc ||| (((v >>> (i * 8)) &&& 0xff) <<< (8 * i))) 0
      = v % 2 ^ (8 * k) := by
  induction k with
  | zero => simp [Nat.mod_one]
  | succ k ih =>
    rw [List.range_succ, List.foldl_append, ih]
    simp only [List.foldl_cons, List.foldl_nil]
    have h255 : (0xff : Nat) = 2 ^ 8 - 1 := by norm_num
    rw [h255, Nat.and_pow_two_sub_one_eq_mod, Nat.shiftLeft_eq,
      Nat.shiftRight_eq_div_pow]
    have e1 : k * 8 = 8 * k := Nat.mul_comm k 8
    rw [e1]
    have hb : v % 2 ^ (8 * k) < 2 ^ (8 * k) := Nat.mod_lt _ (by positivity)
    have e3 : (2 : Nat) ^ (8 * (k + 1)) = 2 ^ (8 * k) * 2 ^ 8 := by
      rw [← pow_add]
      ring_nf
    calc (v % 2 ^ (8 * k)) ||| (v / 2 ^ (8 * k) % 2 ^ 8 * 2 ^ (8 * k))
        = (2 ^ (8 * k) * (v / 2 ^ (8 * k) % 2 ^ 8)) ||| (v % 2 ^ (8 * k)) := by
          rw [Nat.lor_comm, Nat.mul_comm]
      _ = 2 ^ (8 * k) * (v / 2 ^ (8 * k) % 2 ^ 8) + v % 2 ^ (8 * k) :=
          (Nat.mul_add_lt_is_or hb _).symm
      _ = v % 2 ^ (8 * (k + 1)) := by
          rw [e3, Nat.mod_mul]
          exact Nat.add_comm _ _

lemma assert_is_available_ok (d : Deserializer) (n : Nat) (h : ¬ d.remaining < n) :
    d.assert_is_available n = .ok () := by
  simp [Deserializer.assert_is_available, h]

lemma get_big_endian_ok (d : Deserializer) (n : Nat) (h : ¬ d.remaining < n) :
    d.get_big_endian n = .ok ((List.range n).foldl
      (fun value j => value ||| ((d.buffer.getD (d.cursor + j) 0) <<<
        (8 * (n - 1 - j)))) 0,
      ({ d with cursor := d.cursor + n }).update_remaining) := by
  simp [Deserializer.get_big_endian, assert_is_available_ok d n h]

lemma get_little_endian_ok (d : Deserializer) (n : Nat) (h : ¬ d.remaining < n) :
    d.get_little_endian n = .ok ((List.range n).foldl
      (fun value i => value ||| ((d.buffer.getD (d.cursor + i) 0) <<< (8 * i))) 0,
      ({ d with cursor := d.cursor + n }).update_remaining) := by
  simp [Deserializer.get_little_endian, assert_is_available_ok d n h]

lemma get_big_endian_roundtrip (w v : Nat) (hv : v < 2 ^ (8 * w)) :
    ∃ d', (Deserializer.fromBuffer
        ((Serializer.new.push_big_endian w v).buffer)).get_big_endian w
      = .ok (v, d') := by
  have hbuf : (Serializer.new.push_big_endian w v).buffer = bytes_big_endian w v := by
    simp [Serializer.new, Serializer.push_big_endian]
  rw [hbuf]
  have hmain : (Deserializer.fromBuffer (bytes_big_endian w v)).get_big_endian w
      = .ok (v, ({ Deserializer.fromBuffer (bytes_big_endian w v) with
          cursor := (Deserializer.fromBuffer (bytes_big_endian w v)).cursor + w
        }).update_remaining) := by
    rw [get_big_endian_ok (Deserializer.fromBuffer (bytes_big_endian w v)) w
      (by simp [Deserializer.fromBuffer, bytes_big_endian_length])]
    simp only [Deserializer.fromBuffer, Nat.zero_add]
    have hval : (List.range w).foldl
      (fun value j => value ||| (((bytes_big_endian w v).getD j 0) <<<
        (8 * (w - 1 - j)))) 0 = v := by
      rw [List.foldl_ext _
        (fun value j => value ||| (((v >>> ((w - 1 - j) * 8)) &&& 0xff) <<<
          (8 * (w - 1 - j)))) 0
        (fun a j hj => by rw [bytes_big_endian_getD w v j (List.mem_range.mp hj)])]
      rw [show (fun (value : Nat) (j : Nat) =>
          value ||| (((v >>> ((w - 1 - j) * 8)) &&& 0xff) <<< (8 * (w - 1 - j))))
        = (fun (value : Nat) (j : Nat) =>
          (fun (acc : Nat) (i : Nat) =>
            acc ||| (((v >>> (i * 8)) &&& 0xff) <<< (8 * i))) value ((fun j => w - 1 - j) j))
        from rfl]
      rw [← List.foldl_map (fun j => w - 1 - j)
        (fun acc i => acc ||| (((v >>> (i * 8)) &&& 0xff) <<< (8 * i)))]
      rw [range_map_sub]
      have hinit : (0 : Nat) = 2 ^ (8 * w) * (v >>> (8 * w)) := by
        rw [Nat.shiftRight_eq_div_pow, Nat.div_eq_of_lt hv, Nat.mul_zero]
      rw [hinit]
      exact be_fold_aux w v
    rw [hval]
  exact ⟨_, hmain⟩

lemma get_little_endian_roundtrip (w v : Nat) (hv : v < 2 ^ (8 * w)) :
    ∃ d', (Deserializer.fromBuffer
        ((Serializer.new.push_little_endian w v).buffer)).get_little_endian w
      = .ok (v, d') := by
  have hbuf : (Serializer.new.push_little_endian w v).buffer =
      bytes_little_endian w v := by
    simp [Serializer.new, Serializer.push_little_endian]
  rw [hbuf]
  have hmain : (Deserializer.fromBuffer (bytes_little_endian w v)).get_little_endian w
      = .ok (v, ({ Deserializer.fromBuffer (bytes_little_endian w v) with
          cursor := (Deserializer.fromBuffer (bytes_little_endian w v)).cursor + w
        }).update_remaining) := by
    rw [get_little_endian_ok (Deserializer.fromBuffer (bytes_little_endian w v)) w
      (by simp [Deserializer.fromBuffer, bytes_little_endian_length])]
    simp only [Deserializer.fromBuffer, Nat.zero_add]
    have hval : (List.range w).foldl
        (fun value i => value ||| (((bytes_little_endian w v).getD i 0) <<< (8 * i)))
        0 = v := by
      rw [List.foldl_ext _
        (fun value i => value ||| (((v >>> (i * 8)) &&& 0xff) <<< (8 * i))) 0
        (fun a i hi => by rw [bytes_little_endian_getD w v i (List.mem_range.mp hi)])]
      rw [le_fold_aux w v, Nat.mod_eq_of_lt hv]
    rw [hval]
  exact ⟨_, hmain⟩

lemma set_append_shift (A t : List Nat) (j x : Nat) :
    (A ++ t).set (A.length + j) x = A ++ t.set j x := by
  rw [List.set_append_right _ _ (Nat.le_add_right _ _), Nat.add_sub_cancel_left]

lemma set4_zeros (A B : List Nat) (v0 v1 v2 v3 : Nat) :
    (((((A ++ (([0, 0, 0, 0] : List Nat) ++ B)).set (A.length + 0) v0).set
        (A.length + 1) v1).set (A.length + 2) v2).set (A.length + 3) v3)
      = A ++ ([v0, v1, v2, v3] ++ B) := by
  rw [set_append_shift,
    show (([0, 0, 0, 0] : List Nat) ++ B).set 0 v0 = [v0, 0, 0, 0] ++ B from rfl,
    set_append_shift,
    show (([v0, 0, 0, 0] : List Nat) ++ B).set 1 v1 = [v0, v1, 0, 0] ++ B from rfl,
    set_append_shift,
    show (([v0, v1, 0, 0] : List Nat) ++ B).set 2 v2 = [v0, v1, v2, 0] ++ B from rfl,
    set_append_shift,
    show (([v0, v1, v2, 0] : List Nat) ++ B).set 3 v3 = [v0, v1, v2, v3] ++ B from rfl]

lemma shift_and_eq_div_mod (x k : Nat) :
    (x >>> (k * 8)) &&& 0xff = x / 256 ^ k % 256 := by
  have h255 : (0xff : Nat) = 2 ^ 8 - 1 := by norm_num
  rw [h255, Nat.and_pow_two_sub_one_eq_mod, Nat.shiftRight_eq_div_pow,
    Nat.mul_comm k 8, pow_mul]
  norm_num

/-- Sequence of `buffer[index] = value` assignments, applied left to right
(the order in which `insert_buffer_sizes` performs them). -/
def applyWrites (b : List Nat) (L : List (Nat × Nat)) : List Nat :=
  L.foldl (fun b pv => b.set pv.1 pv.2) b

/-- The assignment list performed by `insert_buffer_sizes` for a snapshot
`buffer_size` and patch list `ds`, flattened in execution order. -/
def writesList (buffer_size : Nat) (ds : List Deferred_Buffer_Size) :
    List (Nat × Nat) :=
  ds.flatMap (fun d => (List.range d.number_of_bytes).map
    (fun j => (d.index + j,
      (buffer_size >>> ((d.number_of_bytes - 1 - j) * 8)) &&& 0xff)))

lemma applyWrites_cons (b : List Nat) (pv : Nat × Nat) (L : List (Nat × Nat)) :
    applyWrites b (pv :: L) = applyWrites (b.set pv.1 pv.2) L := rfl

lemma applyWrites_append (b : List Nat) (L1 L2 : List (Nat × Nat)) :
    applyWrites b (L1 ++ L2) = applyWrites (applyWrites b L1) L2 :=
  List.foldl_append _ _ _ _

lemma applyWrites_length (L : List (Nat × Nat)) : ∀ b : List Nat,
    (applyWrites b L).length = b.length := by
  induction L with
  | nil => intro b; rfl
  | cons pv L ih =>
    intro b
    rw [applyWrites_cons, ih]
    simp

lemma insert_buffer_sizes_eq (s : Serializer) :
    s.insert_buffer_sizes =
      ⟨applyWrites s.buffer (writesList s.buffer.length s.deferred_sizes),
        s.deferred_sizes⟩ := by
  have aux : ∀ (ds : List Deferred_Buffer_Size) (b : List Nat) (size : Nat),
      ds.foldl (fun buf deferred =>
        (List.range deferred.number_of_bytes).foldl
          (fun buf j => buf.set (deferred.index + j)
            ((size >>> ((deferred.number_of_bytes - 1 - j) * 8)) &&& 0xff))
          buf) b
      = applyWrites b (writesList size ds) := by
    intro ds
    induction ds with
    | nil => intro b size; simp [writesList, applyWrites]
    | cons d ds ih =>
      intro b size
      rw [List.foldl_cons,
        show writesList size (d :: ds)
          = (List.range d.number_of_bytes).map
              (fun j => (d.index + j,
                (size >>> ((d.number_of_bytes - 1 - j) * 8)) &&& 0xff))
            ++ writesList size ds from by simp [writesList],
        applyWrites_append, ih]
      congr 1
      unfold applyWrites
      rw [List.foldl_map]
  unfold Serializer.insert_buffer_sizes
  simp only []
  rw [Serializer.mk.injEq]
  exact ⟨aux s.deferred_sizes s.buffer s.buffer.length, rfl⟩

/-- Final content of a cell after a sequence of assignments: the last
in-range assignment to index `i` wins, otherwise the initial content. -/
def cellAfter (len i : Nat) (c : Option Nat) (L : List (Nat × Nat)) : Option Nat :=
  L.foldl (fun c pv => if pv.1 = i ∧ i < len then some pv.2 else c) c

lemma getElem?_applyWrites (L : List (Nat × Nat)) : ∀ (b : List Nat) (i : Nat),
    (applyWrites b L)[i]? = cellAfter b.length i (b[i]?) L := by
  induction L with
  | nil => intro b i; rfl
  | cons pv L ih =>
    intro b i
    rw [applyWrites_cons, ih (b.set pv.1 pv.2) i]
    unfold cellAfter
    rw [List.length_set, List.foldl_cons]
    congr 1
    rw [List.getElem?_set]
    by_cases h1 : pv.1 = i
    · by_cases h2 : i < b.length
      · simp [h1, h2]
      · have hn : b[i]? = none := List.getElem?_eq_none (by omega)
        simp [h1, h2, hn]
    · simp [h1]

lemma cellAfter_const (len i : Nat) (L : List (Nat × Nat))
    (h : ∃ pv ∈ L, pv.1 = i ∧ i < len) (c c' : Option Nat) :
    cellAfter len i c L = cellAfter len i c' L := by
  induction L generalizing c c' with
  | nil => simp at h
  | cons pv L ih =>
    unfold cellAfter
    rw [List.foldl_cons, List.foldl_cons]
    by_cases hp : pv.1 = i ∧ i < len
    · simp only [hp, if_pos, and_self, if_true]
    · have h' : ∃ pv ∈ L, pv.1 = i ∧ i < len := by
        rcases h with ⟨q, hq, hqi⟩
        rcases List.mem_cons.mp hq with hq1 | hq2
        · exact absurd (hq1 ▸ hqi) hp
        · exact ⟨q, hq2, hqi⟩
      simp only [hp, if_false]
      exact ih h' c c'

lemma cellAfter_id (len i : Nat) (L : List (Nat × Nat))
    (h : ¬ ∃ pv ∈ L, pv.1 = i ∧ i < len) (c : Option Nat) :
    cellAfter len i c L = c := by
  induction L generalizing c with
  | nil => rfl
  | cons pv L ih =>
    unfold cellAfter
    rw [List.foldl_cons]
    have hp : ¬ (pv.1 = i ∧ i < len) := fun hc => h ⟨pv, List.mem_cons_self pv L, hc⟩
    have h' : ¬ ∃ q ∈ L, q.1 = i ∧ i < len := fun ⟨q, hq, hqi⟩ =>
      h ⟨q, List.mem_cons_of_mem pv hq, hqi⟩
    rw [if_neg hp]
    exact ih h' c

lemma applyWrites_idem (b : List Nat) (L : List (Nat × Nat)) :
    applyWrites (applyWrites b L) L = applyWrites b L := by
  apply List.ext_getElem?
  intro i
  rw [getElem?_applyWrites, getElem?_applyWrites, applyWrites_length]
  by_cases h : ∃ pv ∈ L, pv.1 = i ∧ i < b.length
  · exact cellAfter_const b.length i L h _ _
  · rw [cellAfter_id b.length i L h]

/-! Claim theorems. -/

/-- Claim C4: on every reader state, whenever the requested amount exceeds
the stored `remaining`, each of `get_buffer`, `skip`, the generic
`get_big_endian` / `get_little_endian` and each fixed-width typed read fails
with an OutOfBounds error carrying the requested amount and the remaining
amount, and the state carried at the throw site is exactly the pre-call
state (cursor and remaining unchanged). -/
theorem claim_C4_out_of_bounds (d : Deserializer) (n : Nat) (h : d.remaining < n) :
    d.get_buffer n = .error (⟨n, d.remaining⟩, d)
    ∧ d.skip n = .error (⟨n, d.remaining⟩, d)
    ∧ d.get_big_endian n = .error (⟨n, d.remaining⟩, d)
    ∧ d.get_little_endian n = .error (⟨n, d.remaining⟩, d)
    ∧ (d.remaining < 1 → d.get_byte = .error (⟨1, d.remaining⟩, d))
    ∧ (d.remaining < 2 → d.get_16_big_endian = .error (⟨2, d.remaining⟩, d)
        ∧ d.get_16_little_endian = .error (⟨2, d.remaining⟩, d))
    ∧ (d.remaining < 4 → d.get_32_big_endian = .error (⟨4, d.remaining⟩, d)
        ∧ d.get_32_little_endian = .error (⟨4, d.remaining⟩, d))
    ∧ (d.remaining < 8 → d.get_64_big_endian = .error (⟨8, d.remaining⟩, d)
        ∧ d.get_64_little_endian = .error (⟨8, d.remaining⟩, d)) := by
  refine ⟨get_buffer_oob d n h, skip_oob d n h, get_big_endian_oob d n h,
    get_little_endian_oob d n h, fun h1 => ?_, fun h2 => ⟨?_, ?_⟩,
    fun h4 => ⟨?_, ?_⟩, fun h8 => ⟨?_, ?_⟩⟩
  · simp [Deserializer.get_byte, get_big_endian_oob d 1 h1, Except.map]
  · simp [Deserializer.get_16_big_endian, get_big_endian_oob d 2 h2, Except.map]
  · simp [Deserializer.get_16_little_endian, get_little_endian_oob d 2 h2, Except.map]
  · simp [Deserializer.get_32_big_endian, get_big_endian_oob d 4 h4, Except.map]
  · simp [Deserializer.get_32_little_endian, get_little_endian_oob d 4 h4, Except.map]
  · simp [Deserializer.get_64_big_endian, get_big_endian_oob d 8 h8]
  · simp [Deserializer.get_64_little_endian, get_little_endian_oob d 8 h8]

/-- Witness for claim C4 at a concrete state: two remaining bytes, three
requested. -/
theorem claim_C4_witness :
    (Deserializer.mk [1, 2] 0 2 2).get_buffer 3 =
      .error (⟨3, 2⟩, Deserializer.mk [1, 2] 0 2 2) :=
  (claim_C4_out_of_bounds (Deserializer.mk [1, 2] 0 2 2) 3 (by decide)).1

/-- Counterexample to claim C5: from the reachable state with cursor 1 on a
1-byte buffer, the failing `set_cursor 2` throws out of bounds but leaves the
reader with cursor 0 (the `reset_cursor` half already ran), not with its
pre-call cursor 1. -/
theorem claim_C5_counterexample :
    (Deserializer.fromBuffer [0]).skip 1 = .ok (Deserializer.mk [0] 1 1 0)
    ∧ (Deserializer.mk [0] 1 1 0).set_cursor 2 =
        .error (⟨2, 1⟩, Deserializer.mk [0] 0 1 1)
    ∧ (Deserializer.mk [0] 0 1 1).cursor ≠ (Deserializer.mk [0] 1 1 0).cursor := by
  decide

/-- Claim C5 (amended): for every reader state and every position strictly
greater than `buffer_size`, `set_cursor position` fails with an OutOfBounds
error carrying requested = position and remaining = `buffer_size`, and
leaves the reader with cursor 0 and remaining = `buffer_size` — the
`reset_cursor` step has been applied, the `skip` step has not — rather than
with its pre-call cursor. -/
theorem claim_C5_amended (d : Deserializer) (position : Nat)
    (h : d.buffer_size < position) :
    d.set_cursor position =
      .error (⟨position, d.buffer_size⟩,
        { d with cursor := 0, remaining := d.buffer_size }) := by
  unfold Deserializer.set_cursor
  rw [reset_cursor_eq]
  exact skip_oob _ position h

/-- Witness for the amended claim C5 at a concrete state. -/
theorem claim_C5_witness :
    (Deserializer.mk [0] 1 1 0).set_cursor 2 =
      .error (⟨2, 1⟩, Deserializer.mk [0] 0 1 1) :=
  claim_C5_amended (Deserializer.mk [0] 1 1 0) 2 (by decide)

/-- Claim C7: each fixed-width push fails with a SizeMismatch error — whose
payload is the expected and actual bit-widths printed by the error message —
exactly when the `sizeof` of the declared type differs from the declared
width, and the state carried at the throw site is the unchanged writer
(nothing appended); `push_buffer` is total, appends its argument verbatim,
and on the empty sequence is the identity. -/
theorem claim_C7_size_mismatch (s : Serializer) (sizeofT value : Nat)
    (values : List Nat) :
    (s.push_byte sizeofT value = .error (⟨8, sizeofT % 256 * 8⟩, s) ↔ sizeofT ≠ 1)
    ∧ (s.push_16_big_endian sizeofT value = .error (⟨16, sizeofT % 256 * 8⟩, s)
        ↔ sizeofT ≠ 2)
    ∧ (s.push_16_little_endian sizeofT value = .error (⟨16, sizeofT % 256 * 8⟩, s)
        ↔ sizeofT ≠ 2)
    ∧ (s.push_32_big_endian sizeofT value = .error (⟨32, sizeofT % 256 * 8⟩, s)
        ↔ sizeofT ≠ 4)
    ∧ (s.push_32_little_endian sizeofT value = .error (⟨32, sizeofT % 256 * 8⟩, s)
        ↔ sizeofT ≠ 4)
    ∧ (s.push_64_big_endian sizeofT value = .error (⟨64, sizeofT % 256 * 8⟩, s)
        ↔ sizeofT ≠ 8)
    ∧ (s.push_64_little_endian sizeofT value = .error (⟨64, sizeofT % 256 * 8⟩, s)
        ↔ sizeofT ≠ 8)
    ∧ (sizeofT = 1 → s.push_byte sizeofT value
        = .ok (s.push_little_endian sizeofT value))
    ∧ (sizeofT = 2 → s.push_16_big_endian sizeofT value
          = .ok (s.push_big_endian sizeofT value)
        ∧ s.push_16_little_endian sizeofT value
          = .ok (s.push_little_endian sizeofT value))
    ∧ (sizeofT = 4 → s.push_32_big_endian sizeofT value
          = .ok (s.push_big_endian sizeofT value)
        ∧ s.push_32_little_endian sizeofT value
          = .ok (s.push_little_endian sizeofT value))
    ∧ (sizeofT = 8 → s.push_64_big_endian sizeofT value
          = .ok (s.push_big_endian sizeofT value)
        ∧ s.push_64_little_endian sizeofT value
          = .ok (s.push_little_endian sizeofT value))
    ∧ (s.push_buffer values).buffer = s.buffer ++ values
    ∧ s.push_buffer [] = s := by
  refine ⟨?_, ?_, ?_, ?_, ?_, ?_, ?_,
    fun hsz => by subst hsz; simp [Serializer.push_byte, check_size],
    fun hsz => by
      subst hsz
      exact ⟨by simp [Serializer.push_16_big_endian, check_size],
        by simp [Serializer.push_16_little_endian, check_size]⟩,
    fun hsz => by
      subst hsz
      exact ⟨by simp [Serializer.push_32_big_endian, check_size],
        by simp [Serializer.push_32_little_endian, check_size]⟩,
    fun hsz => by
      subst hsz
      exact ⟨by simp [Serializer.push_64_big_endian, check_size],
        by simp [Serializer.push_64_little_endian, check_size]⟩,
    rfl, by simp [Serializer.push_buffer]⟩ <;>
    · constructor
      · intro heq
        intro hsz
        subst hsz
        simp [Serializer.push_byte, Serializer.push_16_big_endian,
          Serializer.push_16_little_endian, Serializer.push_32_big_endian,
          Serializer.push_32_little_endian, Serializer.push_64_big_endian,
          Serializer.push_64_little_endian, check_size] at heq
      · intro hsz
        simp [Serializer.push_byte, Serializer.push_16_big_endian,
          Serializer.push_16_little_endian, Serializer.push_32_big_endian,
          Serializer.push_32_little_endian, Serializer.push_64_big_endian,
          Serializer.push_64_little_endian, check_size, hsz]

/-- Witness for claim C7: pushing through the 16-bit call with a 4-byte
declared type fails with the 16-versus-32-bit mismatch and leaves the
writer unchanged. -/
theorem claim_C7_witness :
    Serializer.new.push_16_big_endian 4 0x1234
      = .error (⟨16, 4 % 256 * 8⟩, Serializer.new) :=
  ((claim_C7_size_mismatch Serializer.new 4 0x1234 []).2.1).mpr (by decide)

/-- Counterexample to claim C2: the concrete write sequence does not produce
the spec's expected bytes — the length field cannot hold 0x14 = 20 because
the whole buffer is 18 bytes long and the code writes the whole-buffer
length. -/
theorem claim_C2_counterexample :
    (do
      let s1 ← Serializer.new.push_16_big_endian 2 0x1234
      let s2 ← s1.push_32_little_endian 4 0x56789abc
      let s3 := s2.defer_buffer_size_32_big_endian
      let s4 ← s3.push_64_big_endian 8 0xdef0123456789abc
      pure s4.get_buffer.1 : Except (SizeMismatchError × Serializer) (List Nat))
    ≠ .ok [0x12, 0x34, 0xbc, 0x9a, 0x78, 0x56, 0x00, 0x00, 0x00, 0x14,
           0xde, 0xf0, 0x12, 0x34, 0x56, 0x78, 0x9a, 0xbc] := by
  decide

/-- Claim C2 (amended): the concrete write sequence
`push_16_big_endian(0x1234)`, `push_32_little_endian(0x56789abc)`,
`defer_buffer_size_32_big_endian()`, `push_64_big_endian(0xdef0123456789abc)`,
finalize produces exactly the 18 bytes
`12 34 bc 9a 78 56 00 00 00 12 de f0 12 34 56 78 9a bc`: the deferred
4-byte big-endian length field at offset 6 holds 0x12 = 18, the full buffer
length. -/
theorem claim_C2_amended :
    (do
      let s1 ← Serializer.new.push_16_big_endian 2 0x1234
      let s2 ← s1.push_32_little_endian 4 0x56789abc
      let s3 := s2.defer_buffer_size_32_big_endian
      let s4 ← s3.push_64_big_endian 8 0xdef0123456789abc
      pure s4.get_buffer.1 : Except (SizeMismatchError × Serializer) (List Nat))
    = .ok [0x12, 0x34, 0xbc, 0x9a, 0x78, 0x56, 0x00, 0x00, 0x00, 0x12,
           0xde, 0xf0, 0x12, 0x34, 0x56, 0x78, 0x9a, 0xbc] := by
  decide

/-- Claim C3: for every width in {1, 2, 4, 8} and every value representable
in that many bytes, reading that many bytes with the matching byte order
from a buffer produced by pushing exactly that value returns the original
value unchanged, in both the big-endian and the little-endian families. -/
theorem claim_C3_roundtrip (w v : Nat)
    (_hw : w = 1 ∨ w = 2 ∨ w = 4 ∨ w = 8) (hv : v < 2 ^ (8 * w)) :
    (∃ d', (Deserializer.fromBuffer
        ((Serializer.new.push_big_endian w v).buffer)).get_big_endian w
      = .ok (v, d'))
    ∧ (∃ d', (Deserializer.fromBuffer
        ((Serializer.new.push_little_endian w v).buffer)).get_little_endian w
      = .ok (v, d')) :=
  ⟨get_big_endian_roundtrip w v hv, get_little_endian_roundtrip w v hv⟩

/-- Witness for claim C3 at width 4 and value 0x12345678. -/
theorem claim_C3_witness :
    (∃ d', (Deserializer.fromBuffer
        ((Serializer.new.push_big_endian 4 0x12345678).buffer)).get_big_endian 4
      = .ok (0x12345678, d'))
    ∧ (∃ d', (Deserializer.fromBuffer
        ((Serializer.new.push_little_endian 4 0x12345678).buffer)).get_little_endian 4
      = .ok (0x12345678, d')) :=
  claim_C3_roundtrip 4 0x12345678 (by decide) (by norm_num)

/-- Claim C1: pushing bytes A, then deferring a 32-bit big-endian size
field, then pushing bytes B, then finalizing yields
`A ++ (4-byte big-endian of L) ++ B` with total length
`L = A.length + 4 + B.length`: the size field counts the whole buffer
including itself, and A and B are unchanged. -/
theorem claim_C1_deferred_size (A B : List Nat) :
    ((((Serializer.new.push_buffer A).defer_buffer_size_32_big_endian).push_buffer
        B).get_buffer).1
      = A ++ ([(A.length + 4 + B.length) / 256 ^ 3 % 256,
               (A.length + 4 + B.length) / 256 ^ 2 % 256,
               (A.length + 4 + B.length) / 256 ^ 1 % 256,
               (A.length + 4 + B.length) % 256] ++ B)
    ∧ ((((Serializer.new.push_buffer A).defer_buffer_size_32_big_endian).push_buffer
        B).get_buffer).1.length
      = A.length + 4 + B.length := by
  have hzeros : bytes_big_endian 4 0x00000000 = [0, 0, 0, 0] := by decide
  have hbuf3 : (((Serializer.new.push_buffer A).defer_buffer_size_32_big_endian).push_buffer
      B).buffer = A ++ (([0, 0, 0, 0] : List Nat) ++ B) := by
    simp [Serializer.new, Serializer.push_buffer,
      Serializer.defer_buffer_size_32_big_endian, Serializer.push_big_endian, hzeros]
  have hdef3 : (((Serializer.new.push_buffer A).defer_buffer_size_32_big_endian).push_buffer
      B).deferred_sizes = [Deferred_Buffer_Size.mk A.length 4 Endianness.BIG] := by
    simp [Serializer.new, Serializer.push_buffer,
      Serializer.defer_buffer_size_32_big_endian, Serializer.push_big_endian]
  have hlen3 : (A ++ (([0, 0, 0, 0] : List Nat) ++ B)).length
      = A.length + 4 + B.length := by
    simp
    omega
  have hr4 : List.range 4 = [0, 1, 2, 3] := by decide
  have hins : ((((Serializer.new.push_buffer A).defer_buffer_size_32_big_endian).push_buffer
      B).insert_buffer_sizes).buffer
      = A ++ ([(A.length + 4 + B.length) / 256 ^ 3 % 256,
               (A.length + 4 + B.length) / 256 ^ 2 % 256,
               (A.length + 4 + B.length) / 256 ^ 1 % 256,
               (A.length + 4 + B.length) % 256] ++ B) := by
    unfold Serializer.insert_buffer_sizes
    rw [hdef3]
    simp only [hbuf3, hlen3, hr4, List.foldl_cons, List.foldl_nil]
    rw [set4_zeros A B]
    have h3 : ((A.length + 4 + B.length) >>> ((4 - 1 - 0) * 8)) &&& 0xff
        = (A.length + 4 + B.length) / 256 ^ 3 % 256 := by
      rw [show (4 - 1 - 0) * 8 = 3 * 8 from rfl, shift_and_eq_div_mod]
    have h2 : ((A.length + 4 + B.length) >>> ((4 - 1 - 1) * 8)) &&& 0xff
        = (A.length + 4 + B.length) / 256 ^ 2 % 256 := by
      rw [show (4 - 1 - 1) * 8 = 2 * 8 from rfl, shift_and_eq_div_mod]
    have h1 : ((A.length + 4 + B.length) >>> ((4 - 1 - 2) * 8)) &&& 0xff
        = (A.length + 4 + B.length) / 256 ^ 1 % 256 := by
      rw [show (4 - 1 - 2) * 8 = 1 * 8 from rfl, shift_and_eq_div_mod]
    have h0 : ((A.length + 4 + B.length) >>> ((4 - 1 - 3) * 8)) &&& 0xff
        = (A.length + 4 + B.length) % 256 := by
      rw [show (4 - 1 - 3) * 8 = 0 * 8 from rfl, shift_and_eq_div_mod]
      norm_num
    rw [h3, h2, h1, h0]
  refine ⟨?_, ?_⟩
  · show ((((Serializer.new.push_buffer A).defer_buffer_size_32_big_endian).push_buffer
        B).insert_buffer_sizes).buffer = _
    exact hins
  · show ((((Serializer.new.push_buffer A).defer_buffer_size_32_big_endian).push_buffer
        B).insert_buffer_sizes).buffer.length = _
    rw [hins]
    simp
    omega

/-- Claim C6: for every writer state, two consecutive `get_buffer`
(finalize) calls with no intervening writes return byte-for-byte identical
buffers: re-applying the pending patches writes the same bytes because
patching does not change the buffer's length. -/
theorem claim_C6_finalize_idempotent (s : Serializer) :
    ((s.get_buffer).2.get_buffer).1 = (s.get_buffer).1 := by
  show ((s.insert_buffer_sizes).insert_buffer_sizes).buffer
    = (s.insert_buffer_sizes).buffer
  rw [insert_buffer_sizes_eq s,
    insert_buffer_sizes_eq
      ⟨applyWrites s.buffer (writesList s.buffer.length s.deferred_sizes),
        s.deferred_sizes⟩]
  simp only []
  rw [applyWrites_length]
  exact applyWrites_idem s.buffer (writesList s.buffer.length s.deferred_sizes)

/-- States of the reader reachable from construction through successful
operations only. -/
inductive DReachable : Deserializer → Prop where
  | init (buffer : List Nat) : DReachable (Deserializer.fromBuffer buffer)
  | step_skip {d d' : Deserializer} {n : Nat} :
      DReachable d → d.skip n = .ok d' → DReachable d'
  | step_get_buffer {d d' : Deserializer} {n : Nat} {r : List Nat} :
      DReachable d → d.get_buffer n = .ok (r, d') → DReachable d'
  | step_get_big_endian {d d' : Deserializer} {n v : Nat} :
      DReachable d → d.get_big_endian n = .ok (v, d') → DReachable d'
  | step_get_little_endian {d d' : Deserializer} {n v : Nat} :
      DReachable d → d.get_little_endian n = .ok (v, d') → DReachable d'
  | step_get_byte {d d' : Deserializer} {v : Nat} :
      DReachable d → d.get_byte = .ok (v, d') → DReachable d'
  | step_get_16_big {d d' : Deserializer} {v : Nat} :
      DReachable d → d.get_16_big_endian = .ok (v, d') → DReachable d'
  | step_get_32_big {d d' : Deserializer} {v : Nat} :
      DReachable d → d.get_32_big_endian = .ok (v, d') → DReachable d'
  | step_get_64_big {d d' : Deserializer} {v : Nat} :
      DReachable d → d.get_64_big_endian = .ok (v, d') → DReachable d'
  | step_get_16_little {d d' : Deserializer} {v : Nat} :
      DReachable d → d.get_16_little_endian = .ok (v, d') → DReachable d'
  | step_get_32_little {d d' : Deserializer} {v : Nat} :
      DReachable d → d.get_32_little_endian = .ok (v, d') → DReachable d'
  | step_get_64_little {d d' : Deserializer} {v : Nat} :
      DReachable d → d.get_64_little_endian = .ok (v, d') → DReachable d'
  | step_reset {d : Deserializer} : DReachable d → DReachable d.reset_cursor
  | step_set_cursor {d d' : Deserializer} {p : Nat} :
      DReachable d → d.set_cursor p = .ok d' → DReachable d'

/-- The reader's internal consistency: the cursor stays within the stored
size, `remaining` is the recomputed distance to the end, and the stored size
is the wrapped buffer's length. -/
def Deserializer.wf (d : Deserializer) : Prop :=
  d.cursor ≤ d.buffer_size ∧ d.remaining = d.buffer_size - d.cursor ∧
    d.buffer_size = d.buffer.length

lemma wf_update (d : Deserializer) (c : Nat) (hc : c ≤ d.buffer_size)
    (hb : d.buffer_size = d.buffer.length) :
    (({ d with cursor := c }).update_remaining).wf := by
  unfold Deserializer.update_remaining Deserializer.wf
  split
  · rename_i hge
    simp only at hge ⊢
    refine ⟨?_, ?_, ?_⟩ <;> first | trivial | omega
  · rename_i hlt
    simp only at hlt ⊢
    refine ⟨?_, ?_, ?_⟩ <;> first | trivial | omega

lemma wf_skip {d d' : Deserializer} {n : Nat} (hwf : d.wf)
    (h : d.skip n = .ok d') : d'.wf := by
  unfold Deserializer.skip at h
  by_cases hr : d.remaining < n
  · rw [assert_is_available_error d n hr] at h
    simp at h
  · rw [assert_is_available_ok d n hr] at h
    simp at h
    subst h
    exact wf_update d (d.cursor + n) (by obtain ⟨h1, h2, h3⟩ := hwf; omega) hwf.2.2

lemma wf_get_buffer {d d' : Deserializer} {n : Nat} {r : List Nat} (hwf : d.wf)
    (h : d.get_buffer n = .ok (r, d')) : d'.wf := by
  unfold Deserializer.get_buffer at h
  by_cases hr : d.remaining < n
  · rw [assert_is_available_error d n hr] at h
    simp at h
  · rw [assert_is_available_ok d n hr] at h
    simp at h
    obtain ⟨h1, h2⟩ := h
    subst h2
    exact wf_update d (d.cursor + n) (by obtain ⟨h1, h2, h3⟩ := hwf; omega) hwf.2.2

lemma wf_get_big_endian {d d' : Deserializer} {n v : Nat} (hwf : d.wf)
    (h : d.get_big_endian n = .ok (v, d')) : d'.wf := by
  unfold Deserializer.get_big_endian at h
  by_cases hr : d.remaining < n
  · rw [assert_is_available_error d n hr] at h
    simp at h
  · rw [assert_is_available_ok d n hr] at h
    simp at h
    obtain ⟨h1, h2⟩ := h
    subst h2
    exact wf_update d (d.cursor + n) (by obtain ⟨h1, h2, h3⟩ := hwf; omega) hwf.2.2

lemma wf_get_little_endian {d d' : Deserializer} {n v : Nat} (hwf : d.wf)
    (h : d.get_little_endian n = .ok (v, d')) : d'.wf := by
  unfold Deserializer.get_little_endian at h
  by_cases hr : d.remaining < n
  · rw [assert_is_available_error d n hr] at h
    simp at h
  · rw [assert_is_available_ok d n hr] at h
    simp at h
    obtain ⟨h1, h2⟩ := h
    subst h2
    exact wf_update d (d.cursor + n) (by obtain ⟨h1, h2, h3⟩ := hwf; omega) hwf.2.2

lemma wf_reset (d : Deserializer) (hb : d.buffer_size = d.buffer.length) :
    d.reset_cursor.wf :=
  wf_update d 0 (Nat.zero_le _) hb

lemma wf_of_map_big {d d' : Deserializer} {v m : Nat} {w : Nat} (hwf : d.wf)
    (h : (d.get_big_endian w).map (fun p => (p.1 % m, p.2)) = .ok (v, d')) :
    d'.wf := by
  cases hg : d.get_big_endian w with
  | error e => rw [hg] at h; simp [Except.map] at h
  | ok p =>
      rw [hg] at h
      simp [Except.map] at h
      obtain ⟨h1, h2⟩ := h
      exact h2 ▸ wf_get_big_endian hwf hg

lemma wf_of_map_little {d d' : Deserializer} {v m : Nat} {w : Nat} (hwf : d.wf)
    (h : (d.get_little_endian w).map (fun p => (p.1 % m, p.2)) = .ok (v, d')) :
    d'.wf := by
  cases hg : d.get_little_endian w with
  | error e => rw [hg] at h; simp [Except.map] at h
  | ok p =>
      rw [hg] at h
      simp [Except.map] at h
      obtain ⟨h1, h2⟩ := h
      exact h2 ▸ wf_get_little_endian hwf hg

lemma dreachable_wf {d : Deserializer} (h : DReachable d) : d.wf := by
  induction h with
  | init buffer =>
      unfold Deserializer.fromBuffer Deserializer.wf
      simp
  | step_skip _ heq ih => exact wf_skip ih heq
  | step_get_buffer _ heq ih => exact wf_get_buffer ih heq
  | step_get_big_endian _ heq ih => exact wf_get_big_endian ih heq
  | step_get_little_endian _ heq ih => exact wf_get_little_endian ih heq
  | step_get_byte _ heq ih => exact wf_of_map_big ih heq
  | step_get_16_big _ heq ih => exact wf_of_map_big ih heq
  | step_get_32_big _ heq ih => exact wf_of_map_big ih heq
  | step_get_64_big _ heq ih => exact wf_get_big_endian ih heq
  | step_get_16_little _ heq ih => exact wf_of_map_little ih heq
  | step_get_32_little _ heq ih => exact wf_of_map_little ih heq
  | step_get_64_little _ heq ih => exact wf_get_little_endian ih heq
  | step_reset _ ih => exact wf_reset _ ih.2.2
  | step_set_cursor _ heq ih =>
      exact wf_skip (wf_reset _ ih.2.2) heq

/-- Claim C8: in every reader state reachable from construction by a
sequence of successful operations, `0 ≤ cursor ≤ buffer_size` and
`remaining = buffer_size − cursor` hold; the induction over the reachability
relation shows every cursor-moving operation re-establishes them. -/
theorem claim_C8_reader_invariant (d : Deserializer) (h : DReachable d) :
    0 ≤ d.cursor ∧ d.cursor ≤ d.buffer_size ∧
      d.remaining = d.buffer_size - d.cursor := by
  obtain ⟨h1, h2, h3⟩ := dreachable_wf h
  exact ⟨Nat.zero_le _, h1, h2⟩

/-- Witness for claim C8 at a freshly constructed reader. -/
theorem claim_C8_witness :
    0 ≤ (Deserializer.fromBuffer [5]).cursor ∧
      (Deserializer.fromBuffer [5]).cursor ≤ (Deserializer.fromBuffer [5]).buffer_size ∧
      (Deserializer.fromBuffer [5]).remaining =
        (Deserializer.fromBuffer [5]).buffer_size - (Deserializer.fromBuffer [5]).cursor :=
  claim_C8_reader_invariant _ (DReachable.init [5])

lemma update_remaining_eq_self (d : Deserializer)
    (hrem : d.remaining = d.buffer_size - d.cursor) : d.update_remaining = d := by
  unfold Deserializer.update_remaining
  split
  · rename_i hge
    cases d
    simp only at hge hrem ⊢
    rw [Deserializer.mk.injEq]
    refine ⟨rfl, rfl, rfl, ?_⟩
    omega
  · rename_i hlt
    cases d
    simp only at hlt hrem ⊢
    rw [Deserializer.mk.injEq]
    exact ⟨rfl, rfl, rfl, hrem.symm⟩

/-- Claim C9: on every reachable reader state — including one with zero
bytes remaining — `get_buffer 0` succeeds, returns the empty byte sequence,
and leaves the state (cursor and remaining) exactly unchanged. -/
theorem claim_C9_zero_read (d : Deserializer) (h : DReachable d) :
    d.get_buffer 0 = .ok ([], d) := by
  have hwf := dreachable_wf h
  unfold Deserializer.get_buffer
  rw [assert_is_available_ok d 0 (by omega)]
  simp [update_remaining_eq_self d hwf.2.1]

/-- Witness for claim C9 at the empty-buffer reader, which has
`remaining = 0`. -/
theorem claim_C9_witness :
    (Deserializer.fromBuffer []).get_buffer 0 = .ok ([], Deserializer.fromBuffer []) :=
  claim_C9_zero_read _ (DReachable.init [])

/-- States of the writer reachable through its public interface
(`push_object` delegates to `push_buffer`, so it is covered by the
`push_buffer` step). -/
inductive SReachable : Serializer → Prop where
  | new : SReachable Serializer.new
  | ofSize (size value : Nat) : SReachable (Serializer.ofSize size value)
  | push_le {s : Serializer} (w v : Nat) :
      SReachable s → SReachable (s.push_little_endian w v)
  | push_be {s : Serializer} (w v : Nat) :
      SReachable s → SReachable (s.push_big_endian w v)
  | push_byte_ok {s s' : Serializer} {w v : Nat} :
      SReachable s → s.push_byte w v = .ok s' → SReachable s'
  | push_16_be_ok {s s' : Serializer} {w v : Nat} :
      SReachable s → s.push_16_big_endian w v = .ok s' → SReachable s'
  | push_32_be_ok {s s' : Serializer} {w v : Nat} :
      SReachable s → s.push_32_big_endian w v = .ok s' → SReachable s'
  | push_64_be_ok {s s' : Serializer} {w v : Nat} :
      SReachable s → s.push_64_big_endian w v = .ok s' → SReachable s'
  | push_16_le_ok {s s' : Serializer} {w v : Nat} :
      SReachable s → s.push_16_little_endian w v = .ok s' → SReachable s'
  | push_32_le_ok {s s' : Serializer} {w v : Nat} :
      SReachable s → s.push_32_little_endian w v = .ok s' → SReachable s'
  | push_64_le_ok {s s' : Serializer} {w v : Nat} :
      SReachable s → s.push_64_little_endian w v = .ok s' → SReachable s'
  | push_bytes {s : Serializer} (values : List Nat) :
      SReachable s → SReachable (s.push_buffer values)
  | defer {s : Serializer} :
      SReachable s → SReachable s.defer_buffer_size_32_big_endian
  | finalize {s : Serializer} : SReachable s → SReachable (s.get_buffer).2

lemma writesList_map_endianness (size : Nat) (e : Endianness)
    (ds : List Deferred_Buffer_Size) :
    writesList size (ds.map (fun rec =>
      Deferred_Buffer_Size.mk rec.index rec.number_of_bytes e)) = writesList size ds := by
  induction ds with
  | nil => rfl
  | cons d ds ih =>
      unfold writesList at ih ⊢
      simp only [List.map_cons, List.flatMap_cons]
      rw [ih]

/-- Claim C10: every patch record reachable through the public interface has
width 4 and big-endian order (`defer_buffer_size_32_big_endian` is the only
registering operation), and the patching loop of `insert_buffer_sizes` never
consults the recorded endianness — replacing every record's endianness field
leaves the finalized buffer unchanged, so every patched field is written
big-endian. -/
theorem claim_C10_patch_invariant (s : Serializer) :
    (SReachable s → ∀ rec ∈ s.deferred_sizes,
      rec.number_of_bytes = 4 ∧ rec.endianness = Endianness.BIG)
    ∧ ∀ e : Endianness,
      (Serializer.mk s.buffer (s.deferred_sizes.map (fun rec =>
        Deferred_Buffer_Size.mk rec.index rec.number_of_bytes e))).insert_buffer_sizes.buffer
      = s.insert_buffer_sizes.buffer := by
  constructor
  · intro h
    induction h with
    | new => simp [Serializer.new]
    | ofSize size value => simp [Serializer.ofSize]
    | push_le w v _ ih => exact ih
    | push_be w v _ ih => exact ih
    | push_byte_ok _ heq ih =>
        unfold Serializer.push_byte at heq
        split at heq
        · simp at heq
        · simp at heq
          subst heq
          exact ih
    | push_16_be_ok _ heq ih =>
        unfold Serializer.push_16_big_endian at heq
        split at heq
        · simp at heq
        · simp at heq
          subst heq
          exact ih
    | push_32_be_ok _ heq ih =>
        unfold Serializer.push_32_big_endian at heq
        split at heq
        · simp at heq
        · simp at heq
          subst heq
          exact ih
    | push_64_be_ok _ heq ih =>
        unfold Serializer.push_64_big_endian at heq
        split at heq
        · simp at heq
        · simp at heq
          subst heq
          exact ih
    | push_16_le_ok _ heq ih =>
        unfold Serializer.push_16_little_endian at heq
        split at heq
        · simp at heq
        · simp at heq
          subst heq
          exact ih
    | push_32_le_ok _ heq ih =>
        unfold Serializer.push_32_little_endian at heq
        split at heq
        · simp at heq
        · simp at heq
          subst heq
          exact ih
    | push_64_le_ok _ heq ih =>
        unfold Serializer.push_64_little_endian at heq
        split at heq
        · simp at heq
        · simp at heq
          subst heq
          exact ih
    | push_bytes values _ ih => exact ih
    | defer _ ih =>
        intro rec hrec
        simp only [Serializer.defer_buffer_size_32_big_endian,
          Serializer.push_big_endian] at hrec
        rcases List.mem_append.mp hrec with hmem | hmem
        · exact ih rec hmem
        · rcases List.mem_singleton.mp hmem with rfl
          exact ⟨rfl, rfl⟩
    | finalize _ ih =>
        intro rec hrec
        simp only [Serializer.get_buffer] at hrec
        rw [insert_buffer_sizes_eq] at hrec
        exact ih rec hrec
  · intro e
    rw [insert_buffer_sizes_eq, insert_buffer_sizes_eq]
    simp only [List.length_map]
    rw [writesList_map_endianness]

/-- Witness for claim C10 at the writer that registered one deferred size
field. -/
theorem claim_C10_witness :
    ∀ rec ∈ (Serializer.new.defer_buffer_size_32_big_endian).deferred_sizes,
      rec.number_of_bytes = 4 ∧ rec.endianness = Endianness.BIG :=
  (claim_C10_patch_invariant _).1 (SReachable.defer SReachable.new)

end Bufsd
